import Mathlib

/-!
Verification of the CDC consumer of the piam-dashboard repository
(`src/cdc-pipeline/consumer.py`, `src/cdc-pipeline/mapping.py`,
`src/cdc-pipeline/config.py`).

The consumer is a single-threaded poll loop: it classifies incoming CDC
messages from two Kafka topics, maps them to ClickHouse rows, accumulates
them in two buffers, flushes under time/size triggers, and commits the
Kafka read offset only after a successful flush.

Shallow embedding conventions:
* Python dicts become association lists `List (String × Val)` (insertion
  order preserved, first-match lookup).
* `time.time()` becomes an explicit integer timestamp passed into each
  operation (the code reads the clock once per check; we use one `now`
  per loop iteration).
* The ClickHouse client becomes a pair of per-iteration insert outcomes
  (`okE`, `okH`): `true` means `client.insert` returns, `false` means it
  raises.  A `clientConnected` flag models `self.clickhouse_client is None`.
* Ghost state records what the environment observed: `inserts` is the log
  of bulk-insert calls issued, `storeEvents`/`storeHealth` the rows
  durably written, `position` the Kafka read position (messages consumed)
  and `committedOffset` the committed offset; `committedEvents` /
  `committedHealth` snapshot, at each `consumer.commit()`, the full set of
  rows derived from the messages the committed offset now covers
  (everything consumed so far, i.e. rows already stored plus rows still
  buffered).
-/

namespace PiamCDC

/-- JSON-ish scalar values carried by CDC records.  The consumer never
computes with values, it only moves them, so constructors are opaque. -/
inductive Val where
  | vNull : Val
  | vBool : Bool → Val
  | vInt : Int → Val
  | vFloat : Rat → Val
  | vStr : String → Val
deriving DecidableEq

/-- Python truthiness, used by `message.get('__op') or message.get('op')`
and by `if op and ...` in `process_message`. -/
def truthy : Val → Bool
  | .vNull => false
  | .vBool b => b
  | .vInt n => n ≠ 0
  | .vFloat q => q ≠ 0
  | .vStr s => s ≠ ""

/-- A Python dict: association list, insertion order preserved. -/
abbrev Record := List (String × Val)

/-- `d[k]` / `d.get(k)` lookup: first matching key. -/
def lookupRec : Record → String → Option Val
  | [], _ => none
  | (k, v) :: rest, key => if k = key then some v else lookupRec rest key

/-- `cdc_record[k]`: raises `KeyError(k)` when the key is absent
(modelled as `Except.error k`). -/
def getReq (r : Record) (k : String) : Except String Val :=
  match lookupRec r k with
  | some v => Except.ok v
  | none => Except.error k

/-- `cdc_record.get(k, d)` (default `d`; `None` when no default given). -/
def getOpt (r : Record) (k : String) (d : Val) : Val :=
  (lookupRec r k).getD d

/-- `mapping.map_access_event`: dict literal evaluated top to bottom,
raising on the first missing required field. -/
def map_access_event (c : Record) : Except String Record := do
  let event_id ← getReq c "event_id"
  let tenant_id ← getReq c "tenant_id"
  let event_time ← getReq c "event_time"
  let person_id := getOpt c "person_id" .vNull
  let badge_id ← getReq c "badge_id"
  let site_id ← getReq c "site_id"
  let location_id ← getReq c "location_id"
  let direction ← getReq c "direction"
  let result ← getReq c "result"
  let event_type ← getReq c "event_type"
  let deny_reason := getOpt c "deny_reason" .vNull
  let deny_code := getOpt c "deny_code" .vNull
  let pacs_source ← getReq c "pacs_source"
  let pacs_event_id ← getReq c "pacs_event_id"
  let raw_payload := getOpt c "raw_payload" (.vStr "")
  let suspicious_flag := getOpt c "suspicious_flag" (.vInt 0)
  let suspicious_reason := getOpt c "suspicious_reason" .vNull
  let suspicious_score := getOpt c "suspicious_score" (.vFloat 0)
  pure [("event_id", event_id), ("tenant_id", tenant_id),
        ("event_time", event_time), ("person_id", person_id),
        ("badge_id", badge_id), ("site_id", site_id),
        ("location_id", location_id), ("direction", direction),
        ("result", result), ("event_type", event_type),
        ("deny_reason", deny_reason), ("deny_code", deny_code),
        ("pacs_source", pacs_source), ("pacs_event_id", pacs_event_id),
        ("raw_payload", raw_payload), ("suspicious_flag", suspicious_flag),
        ("suspicious_reason", suspicious_reason),
        ("suspicious_score", suspicious_score)]

/-- `mapping.map_connector_health`. -/
def map_connector_health (c : Record) : Except String Record := do
  let tenant_id ← getReq c "tenant_id"
  let connector_id ← getReq c "connector_id"
  let connector_name ← getReq c "connector_name"
  let pacs_type ← getReq c "pacs_type"
  let pacs_version := getOpt c "pacs_version" .vNull
  let check_time ← getReq c "check_time"
  let status ← getReq c "status"
  let latency_ms ← getReq c "latency_ms"
  let events_per_minute ← getReq c "events_per_minute"
  let error_count_1h := getOpt c "error_count_1h" (.vInt 0)
  let last_event_time := getOpt c "last_event_time" .vNull
  let error_message := getOpt c "error_message" .vNull
  let error_code := getOpt c "error_code" .vNull
  let endpoint_url := getOpt c "endpoint_url" .vNull
  let last_successful_sync := getOpt c "last_successful_sync" .vNull
  pure [("tenant_id", tenant_id), ("connector_id", connector_id),
        ("connector_name", connector_name), ("pacs_type", pacs_type),
        ("pacs_version", pacs_version), ("check_time", check_time),
        ("status", status), ("latency_ms", latency_ms),
        ("events_per_minute", events_per_minute),
        ("error_count_1h", error_count_1h),
        ("last_event_time", last_event_time),
        ("error_message", error_message), ("error_code", error_code),
        ("endpoint_url", endpoint_url),
        ("last_successful_sync", last_successful_sync)]

def TOPIC_ACCESS_EVENT : String := "cg.cloudgate.cg_access_event"

def TOPIC_CONNECTOR_HEALTH : String := "cg.cloudgate.cg_connector_health"

/-- `MAX_BUFFER_SIZE` in consumer.py. -/
def MAX_BUFFER_SIZE : Nat := 5000

/-- The consumer-relevant part of `config.Config`. -/
structure Config where
  flushIntervalSeconds : Int
  maxBatchEvents : Nat
  maxBatchHealth : Nat
deriving DecidableEq

/-- One bulk `client.insert(table, data, column_names=columns)` call.
`data` is the column projection of the buffered rows; rows produced by
the mapping functions always contain every column, so entries are
`some v` (a missing key would be a Python `KeyError`). -/
structure InsertCall where
  table : String
  columns : List String
  data : List (List (Option Val))
deriving DecidableEq

/-- Consumer state: the real fields of `CDCConsumer` plus ghost fields
observing the environment (see module docstring). -/
structure CState where
  eventBuffer : List Record
  healthBuffer : List Record
  lastFlush : Int
  totalEvents : Nat
  totalHealth : Nat
  clientConnected : Bool
  inserts : List InsertCall
  storeEvents : List Record
  storeHealth : List Record
  position : Nat
  committedOffset : Nat
  committedEvents : List Record
  committedHealth : List Record
deriving DecidableEq

/-- State at entry of the main loop: fresh `CDCConsumer.__init__` (buffers
empty, `last_flush_time` = construction time `t0`) with both connections
established. -/
def initState (t0 : Int) : CState :=
  { eventBuffer := [], healthBuffer := [], lastFlush := t0,
    totalEvents := 0, totalHealth := 0, clientConnected := true,
    inserts := [], storeEvents := [], storeHealth := [],
    position := 0, committedOffset := 0,
    committedEvents := [], committedHealth := [] }

/-- Python `a or b` on optional values (`dict.get` returns `None` when
absent; `None` and falsy values fall through to `b`). -/
def pyOr (a b : Option Val) : Option Val :=
  match a with
  | some v => if truthy v then some v else b
  | none => b

/-- `op = message.get('__op') or message.get('op')` followed by
`if op and op not in ('c', 'u', 'r')`: `true` means the record is
skipped. -/
def skipOp (m : Record) : Bool :=
  match pyOr (lookupRec m "__op") (lookupRec m "op") with
  | some v =>
      truthy v && !(v = Val.vStr "c" || v = Val.vStr "u" || v = Val.vStr "r")
  | none => false

/-- `{k: v for k, v in message.items() if not k.startswith('__')}`.
`k.startswith('__')` is tested structurally on the character list. -/
def stripMeta (m : Record) : Record :=
  m.filter fun kv =>
    match kv.1.data with
    | '_' :: '_' :: _ => false
    | _ => true

/-- `CDCConsumer.process_message`. -/
def processMessage (topic : String) (msg : Option Record) (s : CState) :
    CState :=
  match msg with
  | none => s
  | some m =>
    if skipOp m then s
    else
      let record := stripMeta m
      if topic = TOPIC_ACCESS_EVENT then
        match map_access_event record with
        | .ok mapped => { s with eventBuffer := s.eventBuffer ++ [mapped] }
        | .error _ => s
      else if topic = TOPIC_CONNECTOR_HEALTH then
        match map_connector_health record with
        | .ok mapped => { s with healthBuffer := s.healthBuffer ++ [mapped] }
        | .error _ => s
      else s

/-- `CDCConsumer.should_flush`.  Reads the clock (`now`) and the buffers;
it is typed as a plain function of the state because the source method
only reads attributes and assigns none. -/
def shouldFlush (cfg : Config) (now : Int) (s : CState) : Bool :=
  if now - s.lastFlush ≥ cfg.flushIntervalSeconds then true
  else if s.eventBuffer.length ≥ cfg.maxBatchEvents then true
  else if s.healthBuffer.length ≥ cfg.maxBatchHealth then true
  else if s.eventBuffer.length + s.healthBuffer.length ≥ MAX_BUFFER_SIZE then
    true
  else false

/-- `columns = list(buf[0].keys()); data = [[row[col] for col in columns]
for row in buf]` packaged as the issued insert call. -/
def insertCallOf (table : String) (buf : List Record) : InsertCall :=
  match buf with
  | [] => ⟨table, [], []⟩
  | r0 :: _ =>
    let columns := r0.map Prod.fst
    ⟨table, columns, buf.map fun row => columns.map fun c => lookupRec row c⟩

/-- `CDCConsumer.flush_to_clickhouse`.  `okE` / `okH` say whether the
event-insert / health-insert call returns normally (`false` = the call
raises, caught by the surrounding `except`, returning `False`). -/
def flush (now : Int) (okE okH : Bool) (s : CState) : CState × Bool :=
  if s.eventBuffer.isEmpty && s.healthBuffer.isEmpty then
    ({ s with lastFlush := now }, true)
  else if !s.clientConnected then (s, false)
  else
    let afterEvents : Option CState :=
      if s.eventBuffer.isEmpty then some s
      else if okE then
        some { s with
          inserts := s.inserts ++ [insertCallOf "fact_access_events"
            s.eventBuffer],
          storeEvents := s.storeEvents ++ s.eventBuffer,
          totalEvents := s.totalEvents + s.eventBuffer.length,
          eventBuffer := [] }
      else none
    match afterEvents with
    | none => (s, false)
    | some s1 =>
      let afterHealth : Option CState :=
        if s1.healthBuffer.isEmpty then some s1
        else if okH then
          some { s1 with
            inserts := s1.inserts ++ [insertCallOf "fact_connector_health"
              s1.healthBuffer],
            storeHealth := s1.storeHealth ++ s1.healthBuffer,
            totalHealth := s1.totalHealth + s1.healthBuffer.length,
            healthBuffer := [] }
        else none
      match afterHealth with
      | none => (s1, false)
      | some s2 => ({ s2 with lastFlush := now }, true)

/-- `consumer.commit()`: the committed offset advances to the current
read position, so the rows it now covers are all rows derived from every
consumed message — those already stored plus those still buffered. -/
def commit (s : CState) : CState :=
  { s with
    committedOffset := s.position,
    committedEvents := s.storeEvents ++ s.eventBuffer,
    committedHealth := s.storeHealth ++ s.healthBuffer }

/-- One observable event of the main loop `CDCConsumer.run`: a message
delivered by the Kafka iterator, or the end of a poll round
(`StopIteration` / loop bottom) where the periodic-flush check runs. -/
inductive Act where
  | msg : String → Option Record → Int → Bool → Bool → Act
  | tick : Int → Bool → Bool → Act
deriving DecidableEq

/-- One iteration of the loop body of `CDCConsumer.run`. -/
def step (cfg : Config) (s : CState) : Act → CState
  | .msg topic m now okE okH =>
    let s1 := processMessage topic m { s with position := s.position + 1 }
    if shouldFlush cfg now s1 then
      match flush now okE okH s1 with
      | (s2, true) => commit s2
      | (s2, false) => s2
    else s1
  | .tick now okE okH =>
    if shouldFlush cfg now s &&
        (!s.eventBuffer.isEmpty || !s.healthBuffer.isEmpty) then
      match flush now okE okH s with
      | (s2, true) => commit s2
      | (s2, false) => s2
    else s

/-- The consumer loop run on a trace of events. -/
def run (cfg : Config) (t0 : Int) (acts : List Act) : CState :=
  acts.foldl (step cfg) (initState t0)

/-- The consumer settings of `config.Config` at their defaults:
`FLUSH_INTERVAL_SECONDS=4`, `MAX_BATCH_EVENTS=200`, `MAX_BATCH_HEALTH=10`. -/
def defaultConfig : Config := ⟨4, 200, 10⟩

/-- A well-formed access-event CDC record (all required fields present). -/
def sampleAccess : Record :=
  [("event_id", .vInt 1), ("tenant_id", .vStr "acme-corp"),
   ("event_time", .vStr "2025-01-01 00:00:00"), ("badge_id", .vStr "b1"),
   ("site_id", .vStr "s1"), ("location_id", .vStr "d1"),
   ("direction", .vStr "in"), ("result", .vStr "grant"),
   ("event_type", .vStr "badge"), ("pacs_source", .vStr "lenel"),
   ("pacs_event_id", .vStr "p1"), ("__op", .vStr "c")]

/-- The ClickHouse row `map_access_event` produces for `sampleAccess`. -/
def sampleRow : Record :=
  [("event_id", .vInt 1), ("tenant_id", .vStr "acme-corp"),
   ("event_time", .vStr "2025-01-01 00:00:00"), ("person_id", .vNull),
   ("badge_id", .vStr "b1"), ("site_id", .vStr "s1"),
   ("location_id", .vStr "d1"), ("direction", .vStr "in"),
   ("result", .vStr "grant"), ("event_type", .vStr "badge"),
   ("deny_reason", .vNull), ("deny_code", .vNull),
   ("pacs_source", .vStr "lenel"), ("pacs_event_id", .vStr "p1"),
   ("raw_payload", .vStr ""), ("suspicious_flag", .vInt 0),
   ("suspicious_reason", .vNull), ("suspicious_score", .vFloat 0)]

/-- Delivery of one well-formed access event at time 0, inserts healthy. -/
def actE : Act := .msg TOPIC_ACCESS_EVENT (some sampleAccess) 0 true true

theorem procA (s : CState) :
    processMessage TOPIC_ACCESS_EVENT (some sampleAccess) s =
      { s with eventBuffer := s.eventBuffer ++ [sampleRow] } := rfl

theorem shouldFlush_eq_false (cfg : Config) (now : Int) (s : CState)
    (h1 : now - s.lastFlush < cfg.flushIntervalSeconds)
    (h2 : s.eventBuffer.length < cfg.maxBatchEvents)
    (h3 : s.healthBuffer.length < cfg.maxBatchHealth)
    (h4 : s.eventBuffer.length + s.healthBuffer.length < MAX_BUFFER_SIZE) :
    shouldFlush cfg now s = false := by
  unfold shouldFlush
  rw [if_neg (by omega), if_neg (by omega), if_neg (by omega),
    if_neg (by omega)]

theorem shouldFlush_true_of_time (cfg : Config) (now : Int) (s : CState)
    (h : now - s.lastFlush ≥ cfg.flushIntervalSeconds) :
    shouldFlush cfg now s = true := by
  unfold shouldFlush
  repeat' split <;> simp_all

theorem shouldFlush_true_of_events (cfg : Config) (now : Int) (s : CState)
    (h : s.eventBuffer.length ≥ cfg.maxBatchEvents) :
    shouldFlush cfg now s = true := by
  unfold shouldFlush
  repeat' split <;> simp_all

theorem shouldFlush_true_of_ceiling (cfg : Config) (now : Int) (s : CState)
    (h : s.eventBuffer.length + s.healthBuffer.length ≥ MAX_BUFFER_SIZE) :
    shouldFlush cfg now s = true := by
  unfold shouldFlush
  repeat' split <;> simp_all

theorem flush_empty (now : Int) (okE okH : Bool) (s : CState)
    (hE : s.eventBuffer = []) (hH : s.healthBuffer = []) :
    flush now okE okH s = ({ s with lastFlush := now }, true) := by
  unfold flush
  rw [if_pos]
  simp [hE, hH]

theorem flush_evFail (now : Int) (okH : Bool) (s : CState)
    (hc : s.clientConnected = true) (hE : s.eventBuffer ≠ []) :
    flush now false okH s = (s, false) := by
  unfold flush
  rw [if_neg, if_neg]
  · simp [List.isEmpty_iff, hE]
  · simp [hc]
  · simp [List.isEmpty_iff, hE]

theorem flush_healthFail (now : Int) (okE : Bool) (s : CState)
    (hc : s.clientConnected = true) (hE : s.eventBuffer = [])
    (hH : s.healthBuffer ≠ []) :
    flush now okE false s = (s, false) := by
  unfold flush
  rw [if_neg, if_neg]
  · simp [List.isEmpty_iff, hE, hH]
  · simp [hc]
  · simp [List.isEmpty_iff, hH]

theorem flush_evOk_healthFail (now : Int) (s : CState)
    (hc : s.clientConnected = true) (hE : s.eventBuffer ≠ [])
    (hH : s.healthBuffer ≠ []) :
    flush now true false s =
      ({ s with
         inserts := s.inserts ++ [insertCallOf "fact_access_events"
           s.eventBuffer],
         storeEvents := s.storeEvents ++ s.eventBuffer,
         totalEvents := s.totalEvents + s.eventBuffer.length,
         eventBuffer := [] }, false) := by
  unfold flush
  rw [if_neg, if_neg]
  · simp [List.isEmpty_iff, hE, hH]
  · simp [hc]
  · simp [List.isEmpty_iff, hE]

theorem flush_ok_fields (now : Int) (s : CState)
    (hc : s.clientConnected = true) :
    flush now true true s =
      ({ s with
         inserts := s.inserts ++
           (if s.eventBuffer.isEmpty then []
            else [insertCallOf "fact_access_events" s.eventBuffer]) ++
           (if s.healthBuffer.isEmpty then []
            else [insertCallOf "fact_connector_health" s.healthBuffer]),
         storeEvents := s.storeEvents ++ s.eventBuffer,
         storeHealth := s.storeHealth ++ s.healthBuffer,
         totalEvents := s.totalEvents + s.eventBuffer.length,
         totalHealth := s.totalHealth + s.healthBuffer.length,
         eventBuffer := [], healthBuffer := [],
         lastFlush := now }, true) := by
  unfold flush
  rcases hE : s.eventBuffer with _ | ⟨e, etl⟩ <;>
    rcases hH : s.healthBuffer with _ | ⟨h, htl⟩ <;>
      simp_all

theorem processMessage_ghost (topic : String) (m : Option Record)
    (s : CState) :
    (processMessage topic m s).lastFlush = s.lastFlush ∧
    (processMessage topic m s).totalEvents = s.totalEvents ∧
    (processMessage topic m s).totalHealth = s.totalHealth ∧
    (processMessage topic m s).clientConnected = s.clientConnected ∧
    (processMessage topic m s).inserts = s.inserts ∧
    (processMessage topic m s).storeEvents = s.storeEvents ∧
    (processMessage topic m s).storeHealth = s.storeHealth ∧
    (processMessage topic m s).position = s.position ∧
    (processMessage topic m s).committedOffset = s.committedOffset ∧
    (processMessage topic m s).committedEvents = s.committedEvents ∧
    (processMessage topic m s).committedHealth = s.committedHealth ∧
    (processMessage topic m s).eventBuffer.length +
        (processMessage topic m s).healthBuffer.length ≤
      s.eventBuffer.length + s.healthBuffer.length + 1 := by
  unfold processMessage
  rcases m with _ | m
  · simp
  · repeat' split <;> (try simp_all) <;> (try omega)

theorem flush_ghost (now : Int) (okE okH : Bool) (s : CState) :
    (flush now okE okH s).1.committedEvents = s.committedEvents ∧
    (flush now okE okH s).1.committedHealth = s.committedHealth ∧
    (flush now okE okH s).1.committedOffset = s.committedOffset ∧
    (flush now okE okH s).1.position = s.position ∧
    (flush now okE okH s).1.clientConnected = s.clientConnected ∧
    s.storeEvents <+: (flush now okE okH s).1.storeEvents ∧
    s.storeHealth <+: (flush now okE okH s).1.storeHealth ∧
    ((flush now okE okH s).2 = true →
      (flush now okE okH s).1.eventBuffer = [] ∧
      (flush now okE okH s).1.healthBuffer = []) := by
  rcases hc : s.clientConnected <;> rcases okE <;> rcases okH <;>
    rcases hE : s.eventBuffer with _ | ⟨e, et⟩ <;>
      rcases hH : s.healthBuffer with _ | ⟨h, ht⟩ <;>
        simp_all [flush, List.prefix_append]

theorem commit_ghost (s : CState) :
    (commit s).storeEvents = s.storeEvents ∧
    (commit s).storeHealth = s.storeHealth ∧
    (commit s).eventBuffer = s.eventBuffer ∧
    (commit s).healthBuffer = s.healthBuffer ∧
    (commit s).clientConnected = s.clientConnected ∧
    (commit s).position = s.position ∧
    (commit s).committedEvents = s.storeEvents ++ s.eventBuffer ∧
    (commit s).committedHealth = s.storeHealth ++ s.healthBuffer ∧
    (commit s).committedOffset = s.position := by
  unfold commit
  simp

/-- Inductive invariant tying the committed offset to the store: rows
covered by the committed offset are already durably written. -/
def CommitInv (s : CState) : Prop :=
  s.committedEvents <+: s.storeEvents ∧
  s.committedHealth <+: s.storeHealth ∧
  s.committedOffset ≤ s.position

theorem flushBranch_inv (now : Int) (okE okH : Bool) (s : CState)
    (hs : CommitInv s) :
    CommitInv (match flush now okE okH s with
      | (s2, true) => commit s2
      | (s2, false) => s2) := by
  obtain ⟨g1, g2, g3, g4, _, g6, g7, g8⟩ := flush_ghost now okE okH s
  rcases hfl : flush now okE okH s with ⟨s2, ok⟩
  rw [hfl] at g1 g2 g3 g4 g6 g7 g8
  dsimp only at g1 g2 g3 g4 g6 g7 g8
  rcases ok
  · show CommitInv s2
    refine ⟨g1 ▸ hs.1.trans g6, g2 ▸ hs.2.1.trans g7, ?_⟩
    have := hs.2.2
    omega
  · show CommitInv (commit s2)
    obtain ⟨c1, c2, c3, c4, c5, c6, c7, c8, c9⟩ := commit_ghost s2
    obtain ⟨hbe, hbh⟩ := g8 rfl
    refine ⟨?_, ?_, ?_⟩
    · rw [c7, c1, hbe, List.append_nil]
    · rw [c8, c2, hbh, List.append_nil]
    · rw [c9, c6]

theorem step_inv (cfg : Config) (s : CState) (a : Act)
    (hs : CommitInv s) : CommitInv (step cfg s a) := by
  rcases a with ⟨topic, m, now, okE, okH⟩ | ⟨now, okE, okH⟩
  · show CommitInv
      (let s1 := processMessage topic m { s with position := s.position + 1 }
       if shouldFlush cfg now s1 then
         match flush now okE okH s1 with
         | (s2, true) => commit s2
         | (s2, false) => s2
       else s1)
    obtain ⟨_, _, _, _, _, p6, p7, p8, p9, p10, p11, _⟩ :=
      processMessage_ghost topic m { s with position := s.position + 1 }
    have h1 : CommitInv
        (processMessage topic m { s with position := s.position + 1 }) := by
      unfold CommitInv
      rw [p6, p7, p10, p11, p8, p9]
      exact ⟨hs.1, hs.2.1, Nat.le_succ_of_le hs.2.2⟩
    dsimp only
    split
    · exact flushBranch_inv now okE okH _ h1
    · exact h1
  · show CommitInv
      (if shouldFlush cfg now s &&
          (!s.eventBuffer.isEmpty || !s.healthBuffer.isEmpty) then
        match flush now okE okH s with
        | (s2, true) => commit s2
        | (s2, false) => s2
      else s)
    split
    · exact flushBranch_inv now okE okH s hs
    · exact hs

theorem foldl_inv (cfg : Config) :
    ∀ (acts : List Act) (s : CState), CommitInv s →
      CommitInv (List.foldl (step cfg) s acts) := by
  intro acts
  induction acts with
  | nil => intro s hs; exact hs
  | cons a rest ih =>
    intro s hs
    exact ih (step cfg s a) (step_inv cfg s a hs)

theorem initState_inv (t0 : Int) : CommitInv (initState t0) :=
  ⟨List.prefix_refl _, List.prefix_refl _, Nat.le_refl _⟩

theorem run_inv (cfg : Config) (t0 : Int) (acts : List Act) :
    CommitInv (run cfg t0 acts) :=
  foldl_inv cfg acts (initState t0) (initState_inv t0)

theorem foldl_replicate_of (f : CState → Act → CState) (a : Act)
    (g : Nat → CState) :
    ∀ n : Nat, (∀ k, k < n → f (g k) a = g (k + 1)) →
      List.foldl f (g 0) (List.replicate n a) = g n := by
  intro n
  induction n with
  | zero => intro _; rfl
  | succ n ih =>
    intro h
    rw [List.replicate_succ', List.foldl_append]
    rw [ih fun k hk => h k (Nat.lt_succ_of_lt hk)]
    simpa using h n (Nat.lt_succ_self n)

/-- Loop state after `k` well-formed access events, none yet flushed. -/
def midState (k : Nat) : CState :=
  { initState 0 with
    eventBuffer := List.replicate k sampleRow,
    position := k }

theorem step_mid (k : Nat) (hk : k + 1 < 200) :
    step defaultConfig (midState k) actE = midState (k + 1) := by
  show step defaultConfig (midState k)
    (.msg TOPIC_ACCESS_EVENT (some sampleAccess) 0 true true) = _
  simp only [step]
  rw [procA]
  rw [shouldFlush_eq_false]
  · simp only [Bool.false_eq_true, if_false, midState, initState]
    rw [← List.replicate_succ' k sampleRow]
  · simp [midState, initState, defaultConfig]
  · simp only [midState, initState, defaultConfig, List.length_append,
      List.length_replicate, List.length_singleton]
    omega
  · simp [midState, initState, defaultConfig]
  · simp only [midState, initState, defaultConfig, MAX_BUFFER_SIZE,
      List.length_append, List.length_replicate, List.length_singleton,
      List.length_nil]
    omega

theorem run_200_pre :
    run defaultConfig 0 (List.replicate 199 actE) = midState 199 := by
  have h0 : initState 0 = midState 0 := rfl
  rw [run, h0]
  exact foldl_replicate_of _ _ midState 199 fun k hk => step_mid k (by omega)


def callOf (n : Nat) : InsertCall :=
  insertCallOf "fact_access_events" (List.replicate n sampleRow)

def flushedState : CState :=
  { eventBuffer := [], healthBuffer := [], lastFlush := 0,
    totalEvents := 200, totalHealth := 0, clientConnected := true,
    inserts := [callOf 200], storeEvents := List.replicate 200 sampleRow,
    storeHealth := [], position := 200, committedOffset := 200,
    committedEvents := List.replicate 200 sampleRow, committedHealth := [] }

theorem step_mid_199 :
    step defaultConfig (midState 199) actE = flushedState := by
  show step defaultConfig (midState 199)
    (.msg TOPIC_ACCESS_EVENT (some sampleAccess) 0 true true) = _
  simp only [step]
  rw [procA]
  have hmid : { midState 199 with
      position := (midState 199).position + 1,
      eventBuffer := (midState 199).eventBuffer ++ [sampleRow] } =
      { initState 0 with
        eventBuffer := List.replicate 200 sampleRow, position := 200 } := by
    simp only [midState, initState]
    rw [← List.replicate_succ' 199 sampleRow]
  rw [hmid]
  rw [shouldFlush_true_of_events]
  · rw [if_pos (Eq.refl true)]
    rw [flush_ok_fields]
    · simp only [commit]
      simp only [initState, List.isEmpty_nil, List.isEmpty_iff,
        List.nil_append, List.append_nil, List.length_replicate]
      have hne : ¬(List.replicate 200 sampleRow = []) := by
        rw [List.replicate_eq_nil_iff]
        omega
      rw [if_neg hne, if_pos trivial]
      simp only [flushedState, callOf, List.append_nil, Nat.zero_add,
        List.length_nil, Nat.add_zero]
    · rfl
  · simp only [initState, List.length_replicate, defaultConfig]
    omega

theorem run_append (cfg : Config) (t0 : Int) (acts more : List Act) :
    run cfg t0 (acts ++ more) =
      more.foldl (step cfg) (run cfg t0 acts) := by
  simp [run, List.foldl_append]

theorem run_200 :
    run defaultConfig 0 (List.replicate 200 actE) = flushedState := by
  have : (200 : Nat) = 199 + 1 := by omega
  rw [this, List.replicate_succ', run_append, run_200_pre]
  simpa using step_mid_199

def mid2 (k : Nat) : CState :=
  { flushedState with
    eventBuffer := List.replicate k sampleRow,
    position := 200 + k }

theorem step_mid2 (k : Nat) (hk : k + 1 < 200) :
    step defaultConfig (mid2 k) actE = mid2 (k + 1) := by
  show step defaultConfig (mid2 k)
    (.msg TOPIC_ACCESS_EVENT (some sampleAccess) 0 true true) = _
  simp only [step]
  rw [procA]
  rw [shouldFlush_eq_false]
  · simp only [Bool.false_eq_true, if_false, mid2, flushedState]
    rw [← List.replicate_succ' k sampleRow]
    simp [Nat.add_assoc]
  · simp [mid2, flushedState, defaultConfig]
  · simp only [mid2, flushedState, defaultConfig, List.length_append,
      List.length_replicate, List.length_singleton]
    omega
  · simp [mid2, flushedState, defaultConfig]
  · simp only [mid2, flushedState, defaultConfig, MAX_BUFFER_SIZE,
      List.length_append, List.length_replicate, List.length_singleton,
      List.length_nil]
    omega

theorem run_250 :
    run defaultConfig 0 (List.replicate 250 actE) = mid2 50 := by
  have h1 : (250 : Nat) = 200 + 50 := by omega
  rw [h1, List.replicate_add, run_append, run_200]
  have h0 : flushedState = mid2 0 := rfl
  rw [h0]
  exact foldl_replicate_of _ _ mid2 50 fun k hk => step_mid2 k (by omega)

def finalState : CState :=
  { eventBuffer := [], healthBuffer := [], lastFlush := 4,
    totalEvents := 250, totalHealth := 0, clientConnected := true,
    inserts := [callOf 200, callOf 50],
    storeEvents := List.replicate 200 sampleRow ++
      List.replicate 50 sampleRow,
    storeHealth := [], position := 250, committedOffset := 250,
    committedEvents := List.replicate 200 sampleRow ++
      List.replicate 50 sampleRow,
    committedHealth := [] }

theorem step_tick_final :
    step defaultConfig (mid2 50) (.tick 4 true true) = finalState := by
  simp only [step]
  rw [shouldFlush_true_of_time]
  · have hne : ¬(List.replicate 50 sampleRow = []) := by
      rw [List.replicate_eq_nil_iff]
      omega
    have hcond : (!(mid2 50).eventBuffer.isEmpty ||
        !(mid2 50).healthBuffer.isEmpty) = true := by
      simp [mid2, flushedState, List.isEmpty_iff, hne]
    rw [hcond]
    rw [if_pos (by rfl)]
    rw [flush_ok_fields]
    · simp only [commit]
      simp only [mid2, flushedState, List.isEmpty_nil, List.isEmpty_iff,
        List.nil_append, List.append_nil, List.length_replicate]
      rw [if_neg hne, if_pos trivial]
      simp only [finalState, callOf, List.append_nil, List.length_nil,
        Nat.add_zero, List.singleton_append]
    · rfl
  · simp [mid2, flushedState, defaultConfig]

theorem callOf_spec (n : Nat) (hn : n ≠ 0) :
    (callOf n).table = "fact_access_events" ∧ (callOf n).data.length = n := by
  obtain ⟨m, rfl⟩ : ∃ m, n = m + 1 := ⟨n - 1, by omega⟩
  unfold callOf insertCallOf
  rw [List.replicate_succ]
  refine ⟨rfl, ?_⟩
  simp only [List.length_map, List.length_cons, List.length_replicate]


/-- Column list of `fact_access_events` rows (dict-literal key order). -/
def accessCols : List String :=
  ["event_id", "tenant_id", "event_time", "person_id", "badge_id",
   "site_id", "location_id", "direction", "result", "event_type",
   "deny_reason", "deny_code", "pacs_source", "pacs_event_id",
   "raw_payload", "suspicious_flag", "suspicious_reason",
   "suspicious_score"]

/-- Column list of `fact_connector_health` rows. -/
def healthCols : List String :=
  ["tenant_id", "connector_id", "connector_name", "pacs_type",
   "pacs_version", "check_time", "status", "latency_ms",
   "events_per_minute", "error_count_1h", "last_event_time",
   "error_message", "error_code", "endpoint_url", "last_successful_sync"]

theorem keys_of_map_access (c row : Record)
    (h : map_access_event c = .ok row) :
    row.map Prod.fst = accessCols := by
  unfold map_access_event at h
  simp only [bind, Except.bind, pure, Except.pure, getReq] at h
  repeat' split at h
  all_goals first
    | (injection h with h2; subst h2; rfl)
    | simp at h

theorem keys_of_map_health (c row : Record)
    (h : map_connector_health c = .ok row) :
    row.map Prod.fst = healthCols := by
  unfold map_connector_health at h
  simp only [bind, Except.bind, pure, Except.pure, getReq] at h
  repeat' split at h
  all_goals first
    | (injection h with h2; subst h2; rfl)
    | simp at h

/-- Every buffered row carries the fixed column set of its table, and
every issued insert call targets one of the two fixed tables with the
fixed column list. -/
def RowsWF (s : CState) : Prop :=
  (∀ r ∈ s.eventBuffer, r.map Prod.fst = accessCols) ∧
  (∀ r ∈ s.healthBuffer, r.map Prod.fst = healthCols) ∧
  (∀ call ∈ s.inserts,
    (call.table = "fact_access_events" ∧ call.columns = accessCols) ∨
    (call.table = "fact_connector_health" ∧ call.columns = healthCols))

theorem processMessage_wf (topic : String) (m : Option Record) (s : CState)
    (hs : RowsWF s) : RowsWF (processMessage topic m s) := by
  obtain ⟨h1, h2, h3⟩ := hs
  rcases m with _ | m
  · exact ⟨h1, h2, h3⟩
  by_cases hskip : skipOp m = true
  · simp only [processMessage, hskip, if_true]
    exact ⟨h1, h2, h3⟩
  · simp only [processMessage, hskip, Bool.false_eq_true, if_false]
    by_cases ht : topic = TOPIC_ACCESS_EVENT
    · rw [if_pos ht]
      rcases hmap : map_access_event (stripMeta m) with e | row <;>
        simp only [hmap]
      · exact ⟨h1, h2, h3⟩
      · refine ⟨?_, h2, h3⟩
        intro r hr
        rcases List.mem_append.1 hr with hr | hr
        · exact h1 r hr
        · rw [List.mem_singleton.1 hr]
          exact keys_of_map_access _ _ hmap
    · rw [if_neg ht]
      by_cases th : topic = TOPIC_CONNECTOR_HEALTH
      · rw [if_pos th]
        rcases hmap : map_connector_health (stripMeta m) with e | row <;>
          simp only [hmap]
        · exact ⟨h1, h2, h3⟩
        · refine ⟨h1, ?_, h3⟩
          intro r hr
          rcases List.mem_append.1 hr with hr | hr
          · exact h2 r hr
          · rw [List.mem_singleton.1 hr]
            exact keys_of_map_health _ _ hmap
      · rw [if_neg th]
        exact ⟨h1, h2, h3⟩

theorem flush_wf (now : Int) (okE okH : Bool) (s : CState)
    (hs : RowsWF s) : RowsWF (flush now okE okH s).1 := by
  obtain ⟨h1, h2, h3⟩ := hs
  rcases hc : s.clientConnected <;> rcases okE <;> rcases okH <;>
    rcases hE : s.eventBuffer with _ | ⟨e, et⟩ <;>
      rcases hH : s.healthBuffer with _ | ⟨h, ht⟩ <;>
        simp_all [flush, RowsWF, insertCallOf, or_imp, forall_and,
          forall_eq, List.mem_singleton, List.mem_append]

theorem step_wf (cfg : Config) (s : CState) (a : Act) (hs : RowsWF s) :
    RowsWF (step cfg s a) := by
  have hflb : ∀ (now : Int) (oE oH : Bool) (t : CState), RowsWF t →
      RowsWF (match flush now oE oH t with
        | (s2, true) => commit s2
        | (s2, false) => s2) := by
    intro now oE oH t ht
    have h2 := flush_wf now oE oH t ht
    rcases hfl : flush now oE oH t with ⟨s2, ok⟩
    rw [hfl] at h2
    dsimp only at h2
    rcases ok
    · exact h2
    · exact h2
  rcases a with ⟨topic, m, now, oE, oH⟩ | ⟨now, oE, oH⟩
  · have h1 : RowsWF
        (processMessage topic m { s with position := s.position + 1 }) :=
      processMessage_wf topic m _ hs
    show RowsWF
      (let s1 := processMessage topic m { s with position := s.position + 1 }
       if shouldFlush cfg now s1 then
         match flush now oE oH s1 with
         | (s2, true) => commit s2
         | (s2, false) => s2
       else s1)
    dsimp only
    split
    · exact hflb now oE oH _ h1
    · exact h1
  · show RowsWF
      (if shouldFlush cfg now s &&
          (!s.eventBuffer.isEmpty || !s.healthBuffer.isEmpty) then
        match flush now oE oH s with
        | (s2, true) => commit s2
        | (s2, false) => s2
      else s)
    split
    · exact hflb now oE oH s hs
    · exact hs

theorem foldl_pres (cfg : Config) (P : CState → Prop)
    (hstep : ∀ s a, P s → P (step cfg s a)) :
    ∀ (acts : List Act) (s : CState), P s →
      P (List.foldl (step cfg) s acts) := by
  intro acts
  induction acts with
  | nil => exact fun s hs => hs
  | cons a rest ih => exact fun s hs => ih (step cfg s a) (hstep s a hs)

theorem run_wf (cfg : Config) (t0 : Int) (acts : List Act) :
    RowsWF (run cfg t0 acts) := by
  have hinit : RowsWF (initState t0) := by
    refine ⟨?_, ?_, ?_⟩ <;> simp [initState]
  exact foldl_pres cfg RowsWF (fun s a => step_wf cfg s a) acts _ hinit

theorem shouldFlush_false_implies (cfg : Config) (now : Int) (s : CState)
    (h : shouldFlush cfg now s = false) :
    s.eventBuffer.length + s.healthBuffer.length < MAX_BUFFER_SIZE := by
  by_contra hge
  rw [shouldFlush_true_of_ceiling cfg now s (by omega)] at h
  cases h

/-- Both insert outcomes of an iteration are successful. -/
def actOk : Act → Bool
  | .msg _ _ _ okE okH => okE && okH
  | .tick _ okE okH => okE && okH

/-- All insert calls of a trace succeed. -/
def allOk (acts : List Act) : Bool := acts.all actOk

/-- Client connected and the combined buffer size below the ceiling. -/
def BufInv (s : CState) : Prop :=
  s.clientConnected = true ∧
  s.eventBuffer.length + s.healthBuffer.length < MAX_BUFFER_SIZE

theorem step_bound (cfg : Config) (s : CState) (a : Act)
    (ha : actOk a = true) (hs : BufInv s) : BufInv (step cfg s a) := by
  rcases a with ⟨topic, m, now, oE, oH⟩ | ⟨now, oE, oH⟩ <;>
    simp only [actOk, Bool.and_eq_true] at ha <;>
      obtain ⟨rfl, rfl⟩ := ha
  · obtain ⟨_, _, _, p4, _, _, _, _, _, _, _, p12⟩ :=
      processMessage_ghost topic m { s with position := s.position + 1 }
    have hc1 : (processMessage topic m
        { s with position := s.position + 1 }).clientConnected = true := by
      rw [p4]
      exact hs.1
    show BufInv
      (let s1 := processMessage topic m { s with position := s.position + 1 }
       if shouldFlush cfg now s1 then
         match flush now true true s1 with
         | (s2, true) => commit s2
         | (s2, false) => s2
       else s1)
    dsimp only
    by_cases hsf : shouldFlush cfg now
        (processMessage topic m { s with position := s.position + 1 }) = true
    · rw [hsf, if_pos (Eq.refl true), flush_ok_fields _ _ hc1]
      refine ⟨?_, ?_⟩ <;> simp [commit, MAX_BUFFER_SIZE, hc1]
    · rw [Bool.not_eq_true] at hsf
      rw [hsf]
      simp only [Bool.false_eq_true, if_false]
      exact ⟨hc1, shouldFlush_false_implies cfg now _ hsf⟩
  · show BufInv
      (if shouldFlush cfg now s &&
          (!s.eventBuffer.isEmpty || !s.healthBuffer.isEmpty) then
        match flush now true true s with
        | (s2, true) => commit s2
        | (s2, false) => s2
      else s)
    by_cases hcond : (shouldFlush cfg now s &&
        (!s.eventBuffer.isEmpty || !s.healthBuffer.isEmpty)) = true
    · rw [hcond, if_pos (Eq.refl true), flush_ok_fields _ _ hs.1]
      refine ⟨?_, ?_⟩ <;> simp [commit, MAX_BUFFER_SIZE, hs.1]
    · rw [Bool.not_eq_true] at hcond
      rw [hcond]
      simp only [Bool.false_eq_true, if_false]
      exact hs

theorem foldl_pres_ok (cfg : Config) (P : CState → Prop)
    (hstep : ∀ s a, actOk a = true → P s → P (step cfg s a)) :
    ∀ (acts : List Act), allOk acts = true → ∀ (s : CState), P s →
      P (List.foldl (step cfg) s acts) := by
  intro acts
  induction acts with
  | nil => exact fun _ s hs => hs
  | cons a rest ih =>
    intro ha s hs
    rw [allOk, List.all_cons, Bool.and_eq_true] at ha
    exact ih ha.2 (step cfg s a) (hstep s a ha.1 hs)

theorem run_bound (cfg : Config) (t0 : Int) (acts : List Act)
    (ha : allOk acts = true) : BufInv (run cfg t0 acts) := by
  have hinit : BufInv (initState t0) := by
    refine ⟨rfl, ?_⟩
    simp [initState, MAX_BUFFER_SIZE]
  exact foldl_pres_ok cfg BufInv (fun s a => step_bound cfg s a) acts ha
    (initState t0) hinit


theorem processMessage_err_access (s : CState) (m : Record) (e : String)
    (hmap : map_access_event (stripMeta m) = .error e) :
    processMessage TOPIC_ACCESS_EVENT (some m) s = s := by
  by_cases hskip : skipOp m = true
  · simp [processMessage, hskip]
  · simp [processMessage, hskip, hmap]

theorem processMessage_err_health (s : CState) (m : Record) (e : String)
    (hmap : map_connector_health (stripMeta m) = .error e) :
    processMessage TOPIC_CONNECTOR_HEALTH (some m) s = s := by
  by_cases hskip : skipOp m = true
  · simp [processMessage, hskip]
  · simp [processMessage, hskip, hmap, TOPIC_CONNECTOR_HEALTH,
      TOPIC_ACCESS_EVENT]

/-- `process_message` applied to a whole polled batch, without any flush
in between (the buffering effect of a batch). -/
def processBatch (msgs : List (String × Option Record)) (s : CState) :
    CState :=
  msgs.foldl (fun st p => processMessage p.1 p.2 st) s

theorem processBatch_drop (s : CState) (pre post : List (String × Option Record))
    (x : String × Option Record)
    (hx : ∀ st : CState, processMessage x.1 x.2 st = st) :
    processBatch (pre ++ x :: post) s = processBatch (pre ++ post) s := by
  simp [processBatch, List.foldl_append, List.foldl_cons, hx]

/-- `op = message.get('__op') or message.get('op')`. -/
def opOf (m : Record) : Option Val :=
  pyOr (lookupRec m "__op") (lookupRec m "op")

/-- The record classes `process_message` actually lets through: marker
absent, falsy, or one of the accepted CDC operations. -/
def acceptedOp (m : Record) : Bool :=
  match opOf m with
  | some v => !truthy v ||
      (v = Val.vStr "c" || v = Val.vStr "u" || v = Val.vStr "r")
  | none => true

theorem skipOp_eq_not_acceptedOp (m : Record) :
    skipOp m = !(acceptedOp m) := by
  unfold skipOp acceptedOp opOf
  rcases pyOr (lookupRec m "__op") (lookupRec m "op") with _ | v <;> simp

theorem processMessage_accepted (s : CState) (m : Record) (row : Record)
    (hacc : acceptedOp m = true)
    (hmap : map_access_event (stripMeta m) = .ok row) :
    processMessage TOPIC_ACCESS_EVENT (some m) s =
      { s with eventBuffer := s.eventBuffer ++ [row] } := by
  have hskip : skipOp m = false := by
    rw [skipOp_eq_not_acceptedOp, hacc]
    rfl
  simp [processMessage, hskip, hmap]

theorem processMessage_accepted_health (s : CState) (m : Record)
    (row : Record) (hacc : acceptedOp m = true)
    (hmap : map_connector_health (stripMeta m) = .ok row) :
    processMessage TOPIC_CONNECTOR_HEALTH (some m) s =
      { s with healthBuffer := s.healthBuffer ++ [row] } := by
  have hskip : skipOp m = false := by
    rw [skipOp_eq_not_acceptedOp, hacc]
    rfl
  simp [processMessage, hskip, hmap, TOPIC_CONNECTOR_HEALTH,
    TOPIC_ACCESS_EVENT]

theorem processMessage_rejected (topic : String) (s : CState) (m : Record)
    (hacc : acceptedOp m = false) :
    processMessage topic (some m) s = s := by
  have hskip : skipOp m = true := by
    rw [skipOp_eq_not_acceptedOp, hacc]
    rfl
  simp [processMessage, hskip]

theorem acceptedOp_delete (m : Record)
    (hop : opOf m = some (Val.vStr "d")) : acceptedOp m = false := by
  unfold acceptedOp
  rw [hop]
  rfl

theorem shouldFlush_iff_aux (cfg : Config) (now : Int) (s : CState) :
    shouldFlush cfg now s = true ↔
      (now - s.lastFlush ≥ cfg.flushIntervalSeconds ∨
       s.eventBuffer.length ≥ cfg.maxBatchEvents ∨
       s.healthBuffer.length ≥ cfg.maxBatchHealth ∨
       s.eventBuffer.length + s.healthBuffer.length ≥ MAX_BUFFER_SIZE) := by
  unfold shouldFlush
  repeat' split <;> simp_all

theorem shouldFlush_mono (cfg : Config) (now now2 : Int) (s : CState)
    (h : shouldFlush cfg now s = true) (hle : now ≤ now2) :
    shouldFlush cfg now2 s = true := by
  rw [shouldFlush_iff_aux] at h ⊢
  rcases h with h | h
  · left
    omega
  · right
    exact h


/-- A state with one row in each buffer (client connected). -/
def cexState : CState :=
  { initState 0 with
    eventBuffer := [[("event_id", Val.vInt 1)]],
    healthBuffer := [[("tenant_id", Val.vInt 2)]] }

/-- A state whose only pending rows are connector-health rows. -/
def healthOnlyState : CState :=
  { initState 0 with healthBuffer := [[("tenant_id", Val.vInt 2)]] }

/-- `sampleAccess` with a present-but-falsy CDC operation marker. -/
def falsyOpAccess : Record :=
  [("__op", .vStr ""), ("event_id", .vInt 1), ("tenant_id", .vStr "acme-corp"),
   ("event_time", .vStr "2025-01-01 00:00:00"), ("badge_id", .vStr "b1"),
   ("site_id", .vStr "s1"), ("location_id", .vStr "d1"),
   ("direction", .vStr "in"), ("result", .vStr "grant"),
   ("event_type", .vStr "badge"), ("pacs_source", .vStr "lenel"),
   ("pacs_event_id", .vStr "p1")]

/-- A delete-marked CDC record. -/
def deleteRec : Record := [("__op", .vStr "d"), ("event_id", .vInt 1)]

/-- A record missing the first required field of both mappings. -/
def badRec : Record := [("tenant_id", .vStr "t")]

/-- A state whose combined buffer size sits exactly at the ceiling. -/
def bigState : CState :=
  { initState 0 with eventBuffer := List.replicate 5000 [] }

/-- Configuration flushing after every single access event. -/
def smallCfg : Config := ⟨4, 1, 10⟩

/-- C1: in every reachable state of the consumer loop, every row covered
by the committed offset has already been written to the analytical store
(committed rows are a prefix of the stored rows, per table), and the
committed offset never runs ahead of the read position.  Commits are
issued only on the `flush = True` branch of `run`, so no commit follows a
failed flush. -/
theorem commit_never_precedes_write (cfg : Config) (t0 : Int)
    (acts : List Act) :
    (run cfg t0 acts).committedEvents <+: (run cfg t0 acts).storeEvents ∧
    (run cfg t0 acts).committedHealth <+: (run cfg t0 acts).storeHealth ∧
    (run cfg t0 acts).committedOffset ≤ (run cfg t0 acts).position :=
  run_inv cfg t0 acts

/-- C2 counterexample: when the access-event insert succeeds and the
health insert then raises, `flush_to_clickhouse` returns failure but the
event buffer has been cleared, so the buffers are NOT both left exactly
as they were. -/
theorem flush_partial_failure_cex :
    (flush 0 true false cexState).2 = false ∧
    (flush 0 true false cexState).1.eventBuffer = [] ∧
    cexState.eventBuffer ≠ [] ∧
    (flush 0 true false cexState).1.healthBuffer = cexState.healthBuffer := by
  decide

/-- C2 (amended): when the FIRST bulk-insert call attempted by
`flush_to_clickhouse` raises, the flush returns failure and the whole
state, both buffers included, is exactly as before the call; and
`should_flush` stays true at any later time on an unchanged state, so
the batch is retried and the offset (untouched on the failure branch of
`run`) is not advanced. -/
theorem flush_failure_keeps_state (cfg : Config) (now now2 : Int)
    (okE okH : Bool) (s : CState) (hc : s.clientConnected = true) :
    (s.eventBuffer ≠ [] → flush now false okH s = (s, false)) ∧
    (s.eventBuffer = [] → s.healthBuffer ≠ [] →
      flush now okE false s = (s, false)) ∧
    (shouldFlush cfg now s = true → now ≤ now2 →
      shouldFlush cfg now2 s = true) :=
  ⟨fun hE => flush_evFail now okH s hc hE,
   fun hE hH => flush_healthFail now okE s hc hE hH,
   fun h hle => shouldFlush_mono cfg now now2 s h hle⟩

theorem flush_failure_keeps_state_witness :
    flush 0 false true cexState = (cexState, false) ∧
    flush 0 true false healthOnlyState = (healthOnlyState, false) ∧
    shouldFlush defaultConfig 9 cexState = true :=
  ⟨(flush_failure_keeps_state defaultConfig 0 9 true true cexState
      (by decide)).1 (by decide),
   (flush_failure_keeps_state defaultConfig 0 9 true true healthOnlyState
      (by decide)).2.1 (by decide) (by decide),
   (flush_failure_keeps_state defaultConfig 4 9 true true cexState
      (by decide)).2.2 (by decide) (by decide)⟩

/-- C3: `should_flush` returns true exactly when one of the triggers
holds: elapsed time at least the flush interval, event buffer at the
event batch limit, health buffer at the health batch limit, or combined
size at the emergency ceiling.  In the embedding it is typed as a pure
function of the state, mirroring the source method, which only reads
attributes and assigns none. -/
theorem shouldFlush_trigger_iff (cfg : Config) (now : Int) (s : CState) :
    shouldFlush cfg now s = true ↔
      (now - s.lastFlush ≥ cfg.flushIntervalSeconds ∨
       s.eventBuffer.length ≥ cfg.maxBatchEvents ∨
       s.healthBuffer.length ≥ cfg.maxBatchHealth ∨
       s.eventBuffer.length + s.healthBuffer.length ≥ MAX_BUFFER_SIZE) :=
  shouldFlush_iff_aux cfg now s

/-- C4: with threshold 200 (default config), 250 queued access events at
time 0 produce a first bulk insert of exactly 200 rows (buffer emptied),
the remaining 50 stay buffered with no further insert, and the periodic
check of the next cycle (time trigger at t = 4) bulk-inserts exactly the
remaining 50. -/
theorem scenario_250_records :
    (run defaultConfig 0 (List.replicate 200 actE)).inserts.map
        (fun c => (c.table, c.data.length)) = [("fact_access_events", 200)] ∧
    (run defaultConfig 0 (List.replicate 200 actE)).eventBuffer = [] ∧
    (run defaultConfig 0 (List.replicate 250 actE)).inserts.map
        (fun c => (c.table, c.data.length)) = [("fact_access_events", 200)] ∧
    (run defaultConfig 0 (List.replicate 250 actE)).eventBuffer.length = 50 ∧
    (run defaultConfig 0
        (List.replicate 250 actE ++ [Act.tick 4 true true])).inserts.map
        (fun c => (c.table, c.data.length)) =
      [("fact_access_events", 200), ("fact_access_events", 50)] ∧
    (run defaultConfig 0
        (List.replicate 250 actE ++ [Act.tick 4 true true])).eventBuffer =
      [] := by
  have hfin : run defaultConfig 0
      (List.replicate 250 actE ++ [Act.tick 4 true true]) = finalState := by
    rw [run_append, run_250]
    simpa using step_tick_final
  obtain ⟨t200, d200⟩ := callOf_spec 200 (by omega)
  obtain ⟨t50, d50⟩ := callOf_spec 50 (by omega)
  rw [run_200, run_250, hfin]
  simp only [flushedState, mid2, finalState, List.map_cons, List.map_nil,
    t200, d200, t50, d50, List.length_replicate]
  exact ⟨trivial, trivial, trivial, trivial, trivial, trivial⟩

/-- C5: a message whose record is missing a required field is dropped by
`process_message` — the state is returned unchanged — and a batch
containing such a record buffers exactly what the same batch without it
would buffer. -/
theorem malformed_record_dropped (s : CState) (m : Record) (e e2 : String)
    (pre post : List (String × Option Record)) :
    (map_access_event (stripMeta m) = .error e →
      processMessage TOPIC_ACCESS_EVENT (some m) s = s ∧
      processBatch (pre ++ (TOPIC_ACCESS_EVENT, some m) :: post) s =
        processBatch (pre ++ post) s) ∧
    (map_connector_health (stripMeta m) = .error e2 →
      processMessage TOPIC_CONNECTOR_HEALTH (some m) s = s ∧
      processBatch (pre ++ (TOPIC_CONNECTOR_HEALTH, some m) :: post) s =
        processBatch (pre ++ post) s) := by
  constructor
  · intro h
    refine ⟨processMessage_err_access s m e h, ?_⟩
    exact processBatch_drop s pre post (TOPIC_ACCESS_EVENT, some m)
      (fun st => processMessage_err_access st m e h)
  · intro h
    refine ⟨processMessage_err_health s m e2 h, ?_⟩
    exact processBatch_drop s pre post (TOPIC_CONNECTOR_HEALTH, some m)
      (fun st => processMessage_err_health st m e2 h)

theorem malformed_record_dropped_witness :
    processMessage TOPIC_ACCESS_EVENT (some badRec) (initState 0) =
      initState 0 ∧
    processBatch ([] ++ (TOPIC_ACCESS_EVENT, some badRec) ::
        [(TOPIC_ACCESS_EVENT, some sampleAccess)]) (initState 0) =
      processBatch ([] ++ [(TOPIC_ACCESS_EVENT, some sampleAccess)])
        (initState 0) :=
  (malformed_record_dropped (initState 0) badRec "event_id" "connector_id"
    [] [(TOPIC_ACCESS_EVENT, some sampleAccess)]).1 rfl

/-- C6: whenever the combined buffer size reaches the ceiling
`MAX_BUFFER_SIZE`, `should_flush` returns true (the forced-flush
trigger), and along any run whose insert calls all succeed the combined
buffer size stays strictly below the ceiling in every reachable state. -/
theorem emergency_ceiling (cfg : Config) (now : Int) (s : CState)
    (t0 : Int) (acts : List Act) :
    (s.eventBuffer.length + s.healthBuffer.length ≥ MAX_BUFFER_SIZE →
      shouldFlush cfg now s = true) ∧
    (allOk acts = true →
      (run cfg t0 acts).eventBuffer.length +
        (run cfg t0 acts).healthBuffer.length < MAX_BUFFER_SIZE) :=
  ⟨fun h => shouldFlush_true_of_ceiling cfg now s h,
   fun h => (run_bound cfg t0 acts h).2⟩

theorem emergency_ceiling_witness :
    shouldFlush defaultConfig 0 bigState = true ∧
    (run defaultConfig 0 [actE]).eventBuffer.length +
      (run defaultConfig 0 [actE]).healthBuffer.length < MAX_BUFFER_SIZE :=
  ⟨(emergency_ceiling defaultConfig 0 bigState 0 [actE]).1
      (by
        simp only [bigState, initState, List.length_replicate,
          List.length_nil, MAX_BUFFER_SIZE]
        omega),
   (emergency_ceiling defaultConfig 0 bigState 0 [actE]).2 (by decide)⟩

/-- C7 counterexample: a record whose `__op` marker is present but falsy
(the empty string, not absent and not one of c/u/r) is still buffered,
because `message.get('__op') or message.get('op')` discards falsy
markers. -/
theorem falsy_marker_buffered_cex :
    lookupRec falsyOpAccess "__op" = some (Val.vStr "") ∧
    Val.vStr "" ≠ Val.vStr "c" ∧ Val.vStr "" ≠ Val.vStr "u" ∧
    Val.vStr "" ≠ Val.vStr "r" ∧
    (processMessage TOPIC_ACCESS_EVENT (some falsyOpAccess)
      (initState 0)).eventBuffer.length = 1 := by
  decide

/-- C7 (amended): `process_message` buffers a record exactly when its
operation marker is absent or falsy or one of c/u/r — `skipOp` is the
negation of that acceptance predicate; accepted records with successful
mapping are appended to the matching buffer, rejected ones (including
every record marked `d`) leave the state unchanged. -/
theorem op_marker_filter (topic : String) (s : CState)
    (m row rowH : Record) :
    (skipOp m = !(acceptedOp m)) ∧
    (acceptedOp m = true → map_access_event (stripMeta m) = .ok row →
      processMessage TOPIC_ACCESS_EVENT (some m) s =
        { s with eventBuffer := s.eventBuffer ++ [row] }) ∧
    (acceptedOp m = true → map_connector_health (stripMeta m) = .ok rowH →
      processMessage TOPIC_CONNECTOR_HEALTH (some m) s =
        { s with healthBuffer := s.healthBuffer ++ [rowH] }) ∧
    (acceptedOp m = false → processMessage topic (some m) s = s) ∧
    (opOf m = some (Val.vStr "d") → acceptedOp m = false) :=
  ⟨skipOp_eq_not_acceptedOp m,
   fun ha hm => processMessage_accepted s m row ha hm,
   fun ha hm => processMessage_accepted_health s m rowH ha hm,
   fun ha => processMessage_rejected topic s m ha,
   fun hop => acceptedOp_delete m hop⟩

theorem op_marker_filter_witness :
    processMessage TOPIC_ACCESS_EVENT (some sampleAccess) (initState 0) =
      { initState 0 with
        eventBuffer := (initState 0).eventBuffer ++ [sampleRow] } ∧
    processMessage TOPIC_ACCESS_EVENT (some deleteRec) (initState 0) =
      initState 0 ∧
    acceptedOp deleteRec = false :=
  ⟨(op_marker_filter TOPIC_ACCESS_EVENT (initState 0) sampleAccess
      sampleRow sampleRow).2.1 (by decide) rfl,
   (op_marker_filter TOPIC_ACCESS_EVENT (initState 0) deleteRec
      [] []).2.2.2.1 (by decide),
   (op_marker_filter TOPIC_ACCESS_EVENT (initState 0) deleteRec
      [] []).2.2.2.2 (by decide)⟩

/-- C8: both mapping functions produce rows whose key list is a fixed
column list in a fixed order, and consequently every bulk insert ever
issued by `flush_to_clickhouse` in a run targets one of the two fixed
tables with that table's fixed column list (derived from the first
buffered row). -/
theorem fixed_tables_and_columns (c row : Record) (cfg : Config)
    (t0 : Int) (acts : List Act) :
    (map_access_event c = .ok row → row.map Prod.fst = accessCols) ∧
    (map_connector_health c = .ok row → row.map Prod.fst = healthCols) ∧
    (∀ call ∈ (run cfg t0 acts).inserts,
      (call.table = "fact_access_events" ∧ call.columns = accessCols) ∨
      (call.table = "fact_connector_health" ∧ call.columns = healthCols)) :=
  ⟨fun h => keys_of_map_access c row h,
   fun h => keys_of_map_health c row h,
   (run_wf cfg t0 acts).2.2⟩

theorem fixed_tables_and_columns_witness :
    sampleRow.map Prod.fst = accessCols ∧
    ((insertCallOf "fact_access_events" [sampleRow]).table =
        "fact_access_events" ∧
      (insertCallOf "fact_access_events" [sampleRow]).columns = accessCols ∨
     (insertCallOf "fact_access_events" [sampleRow]).table =
        "fact_connector_health" ∧
      (insertCallOf "fact_access_events" [sampleRow]).columns = healthCols) :=
  ⟨(fixed_tables_and_columns (stripMeta sampleAccess) sampleRow smallCfg 0
      [actE]).1 rfl,
   (fixed_tables_and_columns (stripMeta sampleAccess) sampleRow smallCfg 0
      [actE]).2.2 (insertCallOf "fact_access_events" [sampleRow])
      (by decide)⟩

/-- C9: once the elapsed time since the last flush reaches the configured
interval, the time trigger makes `should_flush` return true, and the
periodic check of the loop then flushes every non-empty buffer: after the
tick the buffers are empty, their rows are appended to the store, and the
flush timer is reset.  (Record arrival times are bounded below by the
last flush time, so firing at `lastFlush + T` is within `T` of the oldest
unflushed record.) -/
theorem time_trigger_flushes (cfg : Config) (s : CState) (now : Int)
    (hc : s.clientConnected = true)
    (hT : now - s.lastFlush ≥ cfg.flushIntervalSeconds) :
    shouldFlush cfg now s = true ∧
    (s.eventBuffer ≠ [] ∨ s.healthBuffer ≠ [] →
      (step cfg s (.tick now true true)).eventBuffer = [] ∧
      (step cfg s (.tick now true true)).healthBuffer = [] ∧
      (step cfg s (.tick now true true)).lastFlush = now ∧
      (step cfg s (.tick now true true)).storeEvents =
        s.storeEvents ++ s.eventBuffer ∧
      (step cfg s (.tick now true true)).storeHealth =
        s.storeHealth ++ s.healthBuffer) := by
  have hsf := shouldFlush_true_of_time cfg now s hT
  refine ⟨hsf, fun hne => ?_⟩
  have hcond : (shouldFlush cfg now s &&
      (!s.eventBuffer.isEmpty || !s.healthBuffer.isEmpty)) = true := by
    rw [hsf]
    rcases hne with hne | hne <;> simp [List.isEmpty_iff, hne]
  show _ ∧ _ ∧ _ ∧ _ ∧ _
  simp only [step]
  rw [hcond, if_pos (Eq.refl true), flush_ok_fields now s hc]
  simp [commit]

theorem time_trigger_flushes_witness :
    shouldFlush defaultConfig 4 cexState = true ∧
    (step defaultConfig cexState (Act.tick 4 true true)).eventBuffer = [] ∧
    (step defaultConfig cexState (Act.tick 4 true true)).healthBuffer = [] ∧
    (step defaultConfig cexState (Act.tick 4 true true)).lastFlush = 4 := by
  have h := time_trigger_flushes defaultConfig cexState 4 (by decide)
    (by decide)
  exact ⟨h.1, (h.2 (Or.inl (by decide))).1, (h.2 (Or.inl (by decide))).2.1,
    (h.2 (Or.inl (by decide))).2.2.1⟩

/-- C10 counterexample: in the message branch, an elapsed-time trigger
with empty buffers (here: after a dropped delete-marked record) issues no
insert and resets the clock, but it DOES commit — the committed offset
changes from 0 to 1. -/
theorem empty_buffer_commit_cex :
    (run defaultConfig 0
      [Act.msg TOPIC_ACCESS_EVENT (some deleteRec) 4 true true]).committedOffset
        = 1 ∧
    (initState 0).committedOffset = 0 ∧
    (run defaultConfig 0
      [Act.msg TOPIC_ACCESS_EVENT (some deleteRec) 4 true true]).inserts = [] ∧
    (run defaultConfig 0
      [Act.msg TOPIC_ACCESS_EVENT (some deleteRec) 4 true true]).lastFlush = 4 ∧
    (run defaultConfig 0
      [Act.msg TOPIC_ACCESS_EVENT (some deleteRec) 4 true true]).eventBuffer
        = [] := by
  decide

/-- C10 (amended): with both buffers empty, `flush_to_clickhouse` issues
no insert call, returns success, and resets the flush timer; in the
message branch an elapsed-time trigger with empty buffers therefore
issues no insert and restarts the flush-interval clock, and it still
issues a commit, advancing the committed offset past the consumed
(dropped) message. -/
theorem empty_buffer_flush_and_commit (cfg : Config) (s : CState)
    (topic : String) (now : Int) (okE okH : Bool)
    (hE : s.eventBuffer = []) (hH : s.healthBuffer = [])
    (hT : now - s.lastFlush ≥ cfg.flushIntervalSeconds) :
    flush now okE okH s = ({ s with lastFlush := now }, true) ∧
    step cfg s (.msg topic none now okE okH) =
      commit { s with position := s.position + 1, lastFlush := now } ∧
    (step cfg s (.msg topic none now okE okH)).committedOffset =
      s.position + 1 ∧
    (step cfg s (.msg topic none now okE okH)).inserts = s.inserts := by
  refine ⟨flush_empty now okE okH s hE hH, ?_⟩
  have hstep : step cfg s (.msg topic none now okE okH) =
      commit { s with position := s.position + 1, lastFlush := now } := by
    simp only [step]
    have hpm : processMessage topic none
        { s with position := s.position + 1 } =
        { s with position := s.position + 1 } := rfl
    rw [hpm]
    have hsf : shouldFlush cfg now { s with position := s.position + 1 } =
        true := shouldFlush_true_of_time cfg now _ hT
    rw [hsf, if_pos (Eq.refl true)]
    rw [flush_empty now okE okH { s with position := s.position + 1 } hE hH]
  refine ⟨hstep, ?_, ?_⟩ <;> rw [hstep] <;> simp [commit]

theorem empty_buffer_flush_and_commit_witness :
    flush 4 true true (initState 0) =
      ({ initState 0 with lastFlush := 4 }, true) ∧
    (step defaultConfig (initState 0)
      (Act.msg TOPIC_ACCESS_EVENT none 4 true true)).committedOffset =
      (initState 0).position + 1 := by
  have h := empty_buffer_flush_and_commit defaultConfig (initState 0)
    TOPIC_ACCESS_EVENT 4 true true rfl rfl (by decide)
  exact ⟨h.1, h.2.2.1⟩

end PiamCDC
